import Mathlib

/-!
Verification development for the GFC Explorer dashboard
(`src/streamlit_app.py`).

The program loads seven reference tables into an in-memory DuckDB
database and, for a selected CBSA name, runs two SQL queries:

* `out_df` — the per-tract aggregation (joins `hpi_tract`,
  `fips_cbsa`, `zip_attr`, `cbsa`; filters on ILIKE name match,
  year window 2005–2013 and positive HPI; groups by
  `(cbsa_name, fips)`; then left-joins the raw `hpi_tract` table
  back on the extreme HPI values to report `min_year` / `max_year`
  and computes `hpi_loss = min_hpi / max_hpi - 1`);
* `hpi_by_year` — the per-year average HPI series over ZIP-level
  records of the CBSA.

Both queries run through `run_query`, which catches any evaluation
failure and returns an empty dataframe plus a diagnostic message.

This file gives a shallow embedding of those queries over explicit
list-of-row tables and proves / refutes the specification claims
about them.  Numeric cells are untyped text; `TRY_CAST` is modelled
by explicit parsers returning `Option`; SQL `FLOAT` arithmetic is
modelled over `ℚ`.
-/

/-! ### Executable rational arithmetic

The SQL engine computes on FLOAT values; the embedding models them as
exact rationals.  The standard `ℚ` operations of the library are
`@[irreducible]`, which would keep concrete query results from being
evaluated inside proofs, so the embedding computes with the following
definitionally-reducing equivalents, each proved equal to the standard
operation. -/

/-- Executable addition on `ℚ`. -/
def qAdd (a b : ℚ) : ℚ := Rat.divInt (a.num * b.den + b.num * a.den) (a.den * b.den)

/-- Executable subtraction on `ℚ`. -/
def qSub (a b : ℚ) : ℚ := Rat.divInt (a.num * b.den - b.num * a.den) (a.den * b.den)

/-- Executable multiplication on `ℚ`. -/
def qMul (a b : ℚ) : ℚ := Rat.divInt (a.num * b.num) (a.den * b.den)

/-- Executable division on `ℚ` (0 on a zero divisor, as in the library). -/
def qDiv (a b : ℚ) : ℚ := Rat.divInt (a.num * b.den) (a.den * b.num)

/-- Executable negation on `ℚ`. -/
def qNeg (a : ℚ) : ℚ := Rat.divInt (-a.num) (a.den)

/-- Executable sum of a list of rationals. -/
def qSum (l : List ℚ) : ℚ := l.foldl qAdd 0

/-- The denominator of a rational is nonzero in `ℚ`. -/
lemma den_q_ne (a : ℚ) : ((a.den : ℚ)) ≠ 0 := Nat.cast_ne_zero.mpr a.den_nz

/-- The executable addition agrees with the standard one. -/
lemma qAdd_eq (a b : ℚ) : qAdd a b = a + b := by
  conv_rhs => rw [← Rat.num_div_den a, ← Rat.num_div_den b]
  rw [qAdd, Rat.divInt_eq_div, div_add_div _ _ (den_q_ne a) (den_q_ne b)]
  push_cast
  ring_nf

/-- The executable subtraction agrees with the standard one. -/
lemma qSub_eq (a b : ℚ) : qSub a b = a - b := by
  conv_rhs => rw [← Rat.num_div_den a, ← Rat.num_div_den b]
  rw [qSub, Rat.divInt_eq_div, div_sub_div _ _ (den_q_ne a) (den_q_ne b)]
  push_cast
  ring_nf

/-- The executable multiplication agrees with the standard one. -/
lemma qMul_eq (a b : ℚ) : qMul a b = a * b := by
  conv_rhs => rw [← Rat.num_div_den a, ← Rat.num_div_den b]
  rw [qMul, Rat.divInt_eq_div, div_mul_div_comm]
  push_cast
  ring_nf

/-- The executable division agrees with the standard one. -/
lemma qDiv_eq (a b : ℚ) : qDiv a b = a / b := by
  conv_rhs => rw [← Rat.num_div_den a, ← Rat.num_div_den b]
  rw [qDiv, Rat.divInt_eq_div]
  push_cast
  by_cases hb : (b.num : ℚ) = 0
  · rw [hb, mul_zero, div_zero, zero_div, div_zero]
  · field_simp

/-- The executable negation agrees with the standard one. -/
lemma qNeg_eq (a : ℚ) : qNeg a = -a := by
  rw [qNeg, Rat.divInt_eq_div]
  push_cast
  rw [neg_div, Rat.num_div_den]

/-- Folding the executable addition computes `acc` plus the list sum. -/
lemma foldl_qAdd_eq (l : List ℚ) : ∀ acc : ℚ, l.foldl qAdd acc = acc + l.sum := by
  induction l with
  | nil => intro acc; simp
  | cons x xs ih => intro acc; simp [qAdd_eq, ih, add_assoc]

/-- The executable sum agrees with the standard one. -/
lemma qSum_eq (l : List ℚ) : qSum l = l.sum := by
  rw [qSum, foldl_qAdd_eq, zero_add]

/-! ### Numeric cell parsing (TRY_CAST / CAST) -/

/-- Character is an ASCII digit. -/
def isDigitCh (c : Char) : Bool := decide ('0' ≤ c) && decide (c ≤ '9')

/-- All characters are ASCII digits. -/
def allDigits (l : List Char) : Bool := l.all isDigitCh

/-- Numeric value of a digit string (most significant first). -/
def digitsToNat (l : List Char) : ℕ :=
  l.foldl (fun acc c => acc * 10 + (c.toNat - 48)) 0

/-- Parse an unsigned decimal literal (`123`, `12.5`, `.5`, `12.`) as a
rational, the model of SQL `TRY_CAST(... AS FLOAT)` on nonnegative text. -/
def parseUnsignedRat (l : List Char) : Option ℚ :=
  match l.splitOn '.' with
  | [ip] => if !ip.isEmpty && allDigits ip then some (digitsToNat ip) else none
  | [ip, fp] =>
      if (!ip.isEmpty || !fp.isEmpty) && allDigits ip && allDigits fp then
        some (qAdd (digitsToNat ip : ℚ) (mkRat (digitsToNat fp) (Nat.pow 10 fp.length)))
      else none
  | _ => none

/-- Parse a (possibly negative) decimal literal as a rational;
returns `none` on non-numeric text, as DuckDB `TRY_CAST(x AS FLOAT)`
returns NULL. -/
def parseRat (s : String) : Option ℚ :=
  match s.toList with
  | '-' :: rest => (parseUnsignedRat rest).map qNeg
  | l => parseUnsignedRat l

/-- Parse a (possibly negative) integer literal; returns `none` on
non-numeric text, as DuckDB `TRY_CAST(x AS INTEGER)` returns NULL. -/
def parseIntStr (s : String) : Option ℤ :=
  match s.toList with
  | '-' :: rest =>
      if !rest.isEmpty && allDigits rest then some (-(digitsToNat rest : ℤ)) else none
  | l => if !l.isEmpty && allDigits l then some ((digitsToNat l : ℤ)) else none

/-- Model of `TRY_CAST(cell AS FLOAT)` on a nullable text cell. -/
def tryCastFloat (c : Option String) : Option ℚ := c.bind parseRat

/-- Model of `TRY_CAST(cell AS INTEGER)` on a nullable text cell. -/
def tryCastInt (c : Option String) : Option ℤ := c.bind parseIntStr

/-! ### ILIKE pattern matching -/

/-- ASCII lower-casing of a single character, the model of SQL `lower`
as used by `ILIKE`; letters `A`–`Z` (codes 65–90) map to `a`–`z`
(codes 97–122), everything else is unchanged. -/
def lowerChar (c : Char) : Char :=
  if 65 ≤ c.toNat ∧ c.toNat ≤ 90 then Char.ofNat (c.toNat + 32) else c

/-- SQL `LIKE` matching of a string against a pattern: `%` matches any
(possibly empty) character sequence — the rest of the pattern may
resume at any suffix of the string — `_` matches exactly one character,
any other pattern character matches itself. -/
def likeMatch : List Char → List Char → Bool
  | [], s => s.isEmpty
  | c :: p, s =>
      if c = '%' then s.tails.any (fun s2 => likeMatch p s2)
      else
        match s with
        | [] => false
        | c2 :: s2 =>
            if c = '_' then likeMatch p s2
            else decide (c = c2) && likeMatch p s2

/-- SQL `s ILIKE pat`: case-insensitive `LIKE`. -/
def ilike (pat s : String) : Bool :=
  likeMatch (pat.toList.map lowerChar) (s.toList.map lowerChar)

/-! ### Data model: the reference tables

Each row mirrors the columns the queries touch; cells that can be NULL
on disk (DuckDB `nullstr` handling) are `Option`-valued. -/

/-- Row of `hpi_tract` (`hpi_at_bdl_tract.csv` plus the derived column
`fips = left(tract, 5)`). -/
structure TractHpiRow where
  tract : String
  year : Option String
  hpi : Option String
  deriving DecidableEq, Repr

/-- The derived `fips` column of `hpi_tract`: first five characters of
the tract identifier. -/
def TractHpiRow.fips (h : TractHpiRow) : String := h.tract.take 5

/-- Row of `hpi_zip` (`hpi_zip5.csv`): ZIP code, year, HPI. -/
structure ZipHpiRow where
  zip : Option String
  year : Option String
  hpi : Option String
  deriving DecidableEq, Repr

/-- Row of `zip_cbsa` (`us_zip5_cbsa.csv`). -/
structure ZipCbsaRow where
  zip : Option String
  cbsa : Option String
  deriving DecidableEq, Repr

/-- Row of `zip_attr` (`us_zip5_attr.csv`). -/
structure ZipAttrRow where
  zip : Option String
  county_fips : Option String
  lat : Option ℚ
  lng : Option ℚ
  population : Option String
  deriving DecidableEq, Repr

/-- Row of `fips_cbsa` (`us_fips_cbsa.csv`). -/
structure FipsCbsaRow where
  fipsstatecode : Option String
  fipscountycode : Option String
  cbsacode : Option String
  deriving DecidableEq, Repr

/-- The derived `fips` column of `fips_cbsa`:
`fipsstatecode || fipscountycode` (NULL when either part is NULL). -/
def FipsCbsaRow.fips (fc : FipsCbsaRow) : Option String :=
  match fc.fipsstatecode, fc.fipscountycode with
  | some a, some b => some (a ++ b)
  | _, _ => none

/-- Row of `cbsa` (`us_cbsas.csv`): the CBSA code and name columns. -/
structure CbsaRow where
  code : Option String
  name : Option String
  deriving DecidableEq, Repr

/-- The in-memory database of reference tables (only those the two
queries under verification read). -/
structure DB where
  hpi_tract : List TractHpiRow
  hpi_zip : List ZipHpiRow
  zip_cbsa : List ZipCbsaRow
  zip_attr : List ZipAttrRow
  fips_cbsa : List FipsCbsaRow
  cbsa : List CbsaRow
  deriving DecidableEq, Repr

/-! ### Relational operators -/

/-- SQL equality of two nullable text cells: NULL compares false. -/
def eqOptStr (a b : Option String) : Bool :=
  match a, b with
  | some x, some y => decide (x = y)
  | _, _ => false

/-- SQL equality of two nullable numeric cells: NULL compares false. -/
def eqOptQ (a b : Option ℚ) : Bool :=
  match a, b with
  | some x, some y => decide (x = y)
  | _, _ => false

/-- SQL `LEFT JOIN`: every left row is kept; it is paired with each
right row satisfying the join condition, or with `none` when no right
row matches. -/
def leftJoin (l : List α) (r : List β) (onCond : α → β → Bool) : List (α × Option β) :=
  l.flatMap (fun a =>
    let m := r.filter (fun b => onCond a b)
    if m.isEmpty then [(a, none)] else m.map (fun b => (a, some b)))

/-- SQL inner `JOIN`: pairs of rows satisfying the join condition. -/
def innerJoin (l : List α) (r : List β) (onCond : α → β → Bool) : List (α × β) :=
  l.flatMap (fun a => (r.filter (fun b => onCond a b)).map (fun b => (a, b)))

/-! ### The tract aggregation query (`out_df`) -/

/-- Join condition `hpi.fips = fips_cbsa.fips`. -/
def onFc (h : TractHpiRow) (fc : FipsCbsaRow) : Bool :=
  eqOptStr (some h.fips) fc.fips

/-- Intermediate row after the first left join. -/
abbrev Stage1 := TractHpiRow × Option FipsCbsaRow

/-- Join condition `hpi.fips = zip_attr.county_fips`. -/
def onZa (p : Stage1) (za : ZipAttrRow) : Bool :=
  eqOptStr (some p.1.fips) za.county_fips

/-- Intermediate row after the second left join. -/
abbrev Stage2 := Stage1 × Option ZipAttrRow

/-- Join condition `fips_cbsa.cbsacode = cbsa."CBSA Code"` (false when
the `fips_cbsa` side is the NULL padding of the earlier left join). -/
def onC (p : Stage2) (c : CbsaRow) : Bool :=
  eqOptStr (p.1.2.bind FipsCbsaRow.cbsacode) c.code

/-- Fully joined row of the `out_df` FROM clause. -/
abbrev JRow := Stage2 × Option CbsaRow

/-- FROM clause of the tract query: `hpi_tract` left-joined with
`fips_cbsa`, `zip_attr` and `cbsa`. -/
def joinedRows (db : DB) : List JRow :=
  leftJoin (leftJoin (leftJoin db.hpi_tract db.fips_cbsa onFc) db.zip_attr onZa)
    db.cbsa onC

/-- The `hpi_tract` row of a joined row. -/
def JRow.h (jr : JRow) : TractHpiRow := jr.1.1.1

/-- The `zip_attr` row (if any) of a joined row. -/
def JRow.za (jr : JRow) : Option ZipAttrRow := jr.1.2

/-- The `cbsa` row (if any) of a joined row. -/
def JRow.c (jr : JRow) : Option CbsaRow := jr.2

/-- WHERE condition `cbsa."CBSA Name" ILIKE pat` (NULL row or NULL
name compares false). -/
def cbsaNameOk (pat : String) (c : Option CbsaRow) : Bool :=
  match c with
  | some row =>
      match row.name with
      | some n => ilike pat n
      | none => false
  | none => false

/-- WHERE condition `TRY_CAST(hpi.YEAR AS INTEGER) BETWEEN 2005 AND 2013`. -/
def yearInWindow (c : Option String) : Bool :=
  match tryCastInt c with
  | some y => decide (2005 ≤ y) && decide (y ≤ 2013)
  | none => false

/-- WHERE condition `TRY_CAST(hpi.HPI AS FLOAT) > 0`. -/
def hpiPosCell (c : Option String) : Bool :=
  match tryCastFloat c with
  | some q => decide (0 < q)
  | none => false

/-- Full WHERE predicate of the tract query. -/
def whereP (pat : String) (jr : JRow) : Bool :=
  cbsaNameOk pat jr.c && yearInWindow jr.h.year && hpiPosCell jr.h.hpi

/-- Joined rows surviving the WHERE clause. -/
def filteredRows (db : DB) (pat : String) : List JRow :=
  (joinedRows db).filter (whereP pat)

/-- GROUP BY key `(cbsa_name, fips)` of a joined row. -/
def keyOf (jr : JRow) : Option String × String :=
  (jr.c.bind CbsaRow.name, jr.h.fips)

/-- Minimum of a list of rationals (`none` on the empty list), the
model of SQL `min` over a group of non-NULL values. -/
def listMin : List ℚ → Option ℚ
  | [] => none
  | x :: xs => some (xs.foldl min x)

/-- Maximum of a list of rationals (`none` on the empty list). -/
def listMax : List ℚ → Option ℚ
  | [] => none
  | x :: xs => some (xs.foldl max x)

/-- SQL `avg` over the non-NULL values of a group (`none` when there
are none). -/
def listAvg (l : List ℚ) : Option ℚ :=
  if l.isEmpty then none else some (qDiv (qSum l) (l.length : ℚ))

/-- SQL `sum(distinct ...)` over the non-NULL values of a group:
each distinct value contributes once; NULL when there are no values. -/
def sumDistinct (l : List ℤ) : Option ℤ :=
  if l.isEmpty then none else some l.dedup.sum

/-- HPI values (parsed) of the rows of a group. -/
def hpiVals (rows : List JRow) : List ℚ :=
  rows.filterMap (fun jr => tryCastFloat jr.h.hpi)

/-- Latitude values of the rows of a group. -/
def latVals (rows : List JRow) : List ℚ :=
  rows.filterMap (fun jr => jr.za.bind ZipAttrRow.lat)

/-- Longitude values of the rows of a group. -/
def lngVals (rows : List JRow) : List ℚ :=
  rows.filterMap (fun jr => jr.za.bind ZipAttrRow.lng)

/-- Parsed population values of the rows of a group. -/
def popVals (rows : List JRow) : List ℤ :=
  rows.filterMap (fun jr => jr.za.bind (fun za => tryCastInt za.population))

/-- Row of the `hpi_per_tract` CTE. -/
structure AggRow where
  cbsa_name : Option String
  fips : String
  latitude : Option ℚ
  longitude : Option ℚ
  population : Option ℤ
  min_hpi : Option ℚ
  max_hpi : Option ℚ
  deriving DecidableEq, Repr

/-- Aggregates of one `(cbsa_name, fips)` group. -/
def mkAgg (k : Option String × String) (rows : List JRow) : AggRow :=
  { cbsa_name := k.1
    fips := k.2
    latitude := listAvg (latVals rows)
    longitude := listAvg (lngVals rows)
    population := sumDistinct (popVals rows)
    min_hpi := listMin (hpiVals rows)
    max_hpi := listMax (hpiVals rows) }

/-- GROUP BY over a list of filtered joined rows. -/
def perTractOf (rows : List JRow) : List AggRow :=
  ((rows.map keyOf).dedup).map
    (fun k => mkAgg k (rows.filter (fun jr => decide (keyOf jr = k))))

/-- The `hpi_per_tract` CTE of the tract query. -/
def hpi_per_tract (db : DB) (pat : String) : List AggRow :=
  perTractOf (filteredRows db pat)

/-- Row of the final `out_df` result. -/
structure OutRow where
  cbsa_name : Option String
  fips : String
  latitude : Option ℚ
  longitude : Option ℚ
  population : Option ℤ
  min_hpi : Option ℚ
  max_hpi : Option ℚ
  min_year : Option String
  max_year : Option String
  hpi_loss : Option ℚ
  deriving DecidableEq, Repr

/-- Rows of the raw `hpi_tract` table matching the `hmin` join
condition of a group (`fips` equal and HPI casting to `min_hpi`). -/
def matchesMin (db : DB) (ag : AggRow) : List TractHpiRow :=
  db.hpi_tract.filter
    (fun r => decide (r.fips = ag.fips) && eqOptQ (tryCastFloat r.hpi) ag.min_hpi)

/-- Rows of the raw `hpi_tract` table matching the `hmax` join
condition of a group. -/
def matchesMax (db : DB) (ag : AggRow) : List TractHpiRow :=
  db.hpi_tract.filter
    (fun r => decide (r.fips = ag.fips) && eqOptQ (tryCastFloat r.hpi) ag.max_hpi)

/-- SQL NULL-propagating division used for `min_hpi / max_hpi - 1`. -/
def lossOf (ag : AggRow) : Option ℚ :=
  match ag.min_hpi, ag.max_hpi with
  | some mn, some mx => some (qSub (qDiv mn mx) 1)
  | _, _ => none

/-- Final SELECT of the tract query for one grouped row: the two left
joins back onto the raw `hpi_tract` table produce one output row per
(`hmin` match, `hmax` match) pair, with NULL padding when a side has no
match. -/
def finalRows (db : DB) (ag : AggRow) : List OutRow :=
  let mins := matchesMin db ag
  let maxs := matchesMax db ag
  let minYears : List (Option String) :=
    if mins = [] then [none] else mins.map TractHpiRow.year
  let maxYears : List (Option String) :=
    if maxs = [] then [none] else maxs.map TractHpiRow.year
  minYears.flatMap (fun my =>
    maxYears.map (fun xy =>
      { cbsa_name := ag.cbsa_name
        fips := ag.fips
        latitude := ag.latitude
        longitude := ag.longitude
        population := ag.population
        min_hpi := ag.min_hpi
        max_hpi := ag.max_hpi
        min_year := my
        max_year := xy
        hpi_loss := lossOf ag }))

/-- The `out_df` query: `aggregateByTract` of the specification (the
year window 2005–2013 is fixed in the SQL text). -/
def aggregateByTract (db : DB) (pat : String) : List OutRow :=
  (hpi_per_tract db pat).flatMap (finalRows db)

/-! ### The year-series query (`hpi_by_year`) -/

/-- Fully joined row of the year-series query FROM clause. -/
abbrev ZJoined := (ZipHpiRow × ZipCbsaRow) × CbsaRow

/-- FROM clause of the year-series query: `hpi_zip` inner-joined with
`zip_cbsa` on the ZIP code and with `cbsa` on the CBSA code. -/
def zipJoined (db : DB) : List ZJoined :=
  innerJoin (innerJoin db.hpi_zip db.zip_cbsa (fun zh zc => eqOptStr zh.zip zc.zip))
    db.cbsa (fun p c => eqOptStr p.2.cbsa c.code)

/-- Strict cast `YEAR::int` of the ZIP-HPI year cell: NULL casts to
NULL, numeric text casts to its value, other text raises a conversion
error (modelled as `Except.error`). -/
def castYearE (r : ZJoined) : Except String (Option ℤ) :=
  match r.1.1.year with
  | none => Except.ok none
  | some s =>
      match parseIntStr s with
      | some y => Except.ok (some y)
      | none => Except.error ("Could not convert string " ++ s ++ " to INT32")

/-- WHERE predicate of the year-series query, evaluated left to right:
the ILIKE name test first, then the strict year cast (which can fail),
then the window bounds and the positive-HPI test. -/
def zipWhereE (pat : String) (r : ZJoined) : Except String Bool :=
  if cbsaNameOk pat (some r.2) then
    (castYearE r).map
      (fun y? =>
        match y? with
        | some y => (decide (2005 ≤ y) && decide (y ≤ 2013)) && hpiPosCell r.1.1.hpi
        | none => false)
  else Except.ok false

/-- Filtering a list through an effectful predicate; the first raised
error aborts the whole evaluation, as a SQL conversion error aborts the
query. -/
def exceptFilter (p : α → Except String Bool) : List α → Except String (List α)
  | [] => Except.ok []
  | x :: xs =>
      match p x with
      | Except.error e => Except.error e
      | Except.ok b =>
          match exceptFilter p xs with
          | Except.error e => Except.error e
          | Except.ok r => Except.ok (if b then x :: r else r)

/-- Parsed year of a ZIP-HPI joined row. -/
def zrowYear (r : ZJoined) : Option ℤ := r.1.1.year.bind parseIntStr

/-- Rows of a filtered list belonging to one year group. -/
def yearRows (rows : List ZJoined) (y : ℤ) : List ZJoined :=
  rows.filter (fun r => decide (zrowYear r = some y))

/-- SQL `AVG(TRY_CAST(HPI AS FLOAT))` over a year group. -/
def meanHpi (rows : List ZJoined) : ℚ :=
  let vals := rows.filterMap (fun r => tryCastFloat r.1.1.hpi)
  qDiv (qSum vals) (vals.length : ℚ)

/-- The `hpi_by_year` query: `aggregateByYear` of the specification.
Groups the filtered ZIP-HPI rows by year, averages the HPI values and
orders by year ascending; a failing `YEAR::int` cast aborts the query
with an error. -/
def hpiByYear (db : DB) (pat : String) : Except String (List (ℤ × ℚ)) :=
  (exceptFilter (zipWhereE pat) (zipJoined db)).map
    (fun rows =>
      (((rows.filterMap zrowYear).dedup).insertionSort (fun a b => a ≤ b)).map
        (fun y => (y, meanHpi (yearRows rows y))))

/-! ### Chart-level derived metrics and the query boundary -/

/-- First element of a list attaining the maximal measure, the model of
pandas `idxmax`-then-`loc` (ties resolve to the earliest row). -/
def argmaxBy (f : α → ℚ) : List α → Option α
  | [] => none
  | x :: xs => some (xs.foldl (fun b y => if f b < f y then y else b) x)

/-- First element of a list attaining the minimal measure, the model of
pandas `idxmin`-then-`loc`. -/
def argminBy (f : α → ℚ) : List α → Option α
  | [] => none
  | x :: xs => some (xs.foldl (fun b y => if f y < f b then y else b) x)

/-- The annotated percentage loss of the chart:
`(min_point.avg_hpi - max_point.avg_hpi) / max_point.avg_hpi * 100`
over the global extrema of the year series. -/
def percentLoss (s : List (ℤ × ℚ)) : Option ℚ :=
  match argmaxBy Prod.snd s, argminBy Prod.snd s with
  | some mxp, some mnp => some (qMul (qDiv (qSub mnp.2 mxp.2) mxp.2) 100)
  | _, _ => none

/-- The `run_query` boundary: a successful query returns its rows with
no diagnostic; a failing one returns an empty result and the surfaced
error message, never an exception. -/
def runQuery (q : Except String (List α)) : List α × Option String :=
  match q with
  | Except.ok t => (t, none)
  | Except.error e => ([], some ("Error running query: " ++ e))

/-! ### Concrete example databases -/

/-- Example database: one CBSA "Metro" over county `11111` with three
tract-HPI rows, three ZIP-attribute rows (two sharing a population
figure) and a small ZIP-HPI history. -/
def dbA : DB :=
  { hpi_tract :=
      [ { tract := "11111000001", year := some "2005", hpi := some "100" }
      , { tract := "11111000001", year := some "2006", hpi := some "80" }
      , { tract := "11111000001", year := some "2007", hpi := some "120" } ]
    hpi_zip :=
      [ { zip := some "00601", year := some "2005", hpi := some "100" }
      , { zip := some "00601", year := some "2006", hpi := some "120" }
      , { zip := some "00601", year := some "2006", hpi := some "140" } ]
    zip_cbsa := [ { zip := some "00601", cbsa := some "C1" } ]
    zip_attr :=
      [ { zip := some "00601", county_fips := some "11111", lat := some 18,
          lng := some (-66), population := some "500" }
      , { zip := some "00602", county_fips := some "11111", lat := some 20,
          lng := some (-67), population := some "500" }
      , { zip := some "00603", county_fips := some "11111", lat := some 22,
          lng := some (-68), population := some "300" } ]
    fips_cbsa :=
      [ { fipsstatecode := some "11", fipscountycode := some "111",
          cbsacode := some "C1" } ]
    cbsa := [ { code := some "C1", name := some "Metro" } ] }

/-- Example database: county `22222` has in-window rows 2005 (HPI 100)
and 2006 (HPI 120), plus an out-of-window 2004 row whose HPI also
equals 100. -/
def db2 : DB :=
  { hpi_tract :=
      [ { tract := "22222000001", year := some "2005", hpi := some "100" }
      , { tract := "22222000001", year := some "2006", hpi := some "120" }
      , { tract := "22222000001", year := some "2004", hpi := some "100" } ]
    hpi_zip := []
    zip_cbsa := []
    zip_attr := []
    fips_cbsa :=
      [ { fipsstatecode := some "22", fipscountycode := some "222",
          cbsacode := some "C2" } ]
    cbsa := [ { code := some "C2", name := some "Testville" } ] }

/-- Example database: county `33333` has two in-window years tied at
the minimum HPI value 100. -/
def db3 : DB :=
  { hpi_tract :=
      [ { tract := "33333000001", year := some "2005", hpi := some "100" }
      , { tract := "33333000001", year := some "2006", hpi := some "100" }
      , { tract := "33333000001", year := some "2007", hpi := some "120" } ]
    hpi_zip := []
    zip_cbsa := []
    zip_attr := []
    fips_cbsa :=
      [ { fipsstatecode := some "33", fipscountycode := some "333",
          cbsacode := some "C3" } ]
    cbsa := [ { code := some "C3", name := some "Dupton" } ] }

/-- Example database: county `44444` has four in-window years with HPI
cells `120`, `N/A`, `-5`, `80`. -/
def db4 : DB :=
  { hpi_tract :=
      [ { tract := "44444000001", year := some "2005", hpi := some "120" }
      , { tract := "44444000001", year := some "2006", hpi := some "N/A" }
      , { tract := "44444000001", year := some "2007", hpi := some "-5" }
      , { tract := "44444000001", year := some "2008", hpi := some "80" } ]
    hpi_zip := []
    zip_cbsa := []
    zip_attr := []
    fips_cbsa :=
      [ { fipsstatecode := some "44", fipscountycode := some "444",
          cbsacode := some "C4" } ]
    cbsa := [ { code := some "C4", name := some "Fourcity" } ] }

/-- Example database: county `55555` has one tract-HPI row but no
ZIP-attribute row with a matching county FIPS. -/
def db10 : DB :=
  { hpi_tract :=
      [ { tract := "55555000001", year := some "2006", hpi := some "100" } ]
    hpi_zip := []
    zip_cbsa := []
    zip_attr :=
      [ { zip := some "99999", county_fips := some "77777", lat := some 1,
          lng := some 2, population := some "10" } ]
    fips_cbsa :=
      [ { fipsstatecode := some "55", fipscountycode := some "555",
          cbsacode := some "C5" } ]
    cbsa := [ { code := some "C5", name := some "Lonelyville" } ] }

/-! ### Membership characterization of the relational operators -/

/-- Match status of the optional right component of a left-join row:
NULL padding certifies that no right row satisfies the join condition;
a present component is a right row satisfying it. -/
def padMatch (r : List β) (cond : β → Bool) : Option β → Prop
  | none => r.filter cond = []
  | some b => b ∈ r ∧ cond b = true

/-- Characterization of membership in a left join. -/
lemma mem_leftJoin {l : List α} {r : List β} {onCond : α → β → Bool}
    {x : α × Option β} :
    x ∈ leftJoin l r onCond ↔ x.1 ∈ l ∧ padMatch r (onCond x.1) x.2 := by
  obtain ⟨a, b?⟩ := x
  unfold leftJoin
  rw [List.mem_flatMap]
  constructor
  · rintro ⟨a2, ha2, hx⟩
    dsimp only at hx
    by_cases hm : (r.filter (fun b => onCond a2 b)).isEmpty
    · rw [if_pos hm, List.mem_singleton, Prod.mk.injEq] at hx
      obtain ⟨rfl, rfl⟩ := hx
      exact ⟨ha2, List.isEmpty_iff.mp hm⟩
    · rw [if_neg hm, List.mem_map] at hx
      obtain ⟨b, hb, hx⟩ := hx
      rw [Prod.mk.injEq] at hx
      obtain ⟨rfl, rfl⟩ := hx
      rw [List.mem_filter] at hb
      exact ⟨ha2, hb.1, hb.2⟩
  · rintro ⟨ha, hpm⟩
    refine ⟨a, ha, ?_⟩
    dsimp only
    cases b? with
    | none =>
        have hm : (r.filter (fun b => onCond a b)).isEmpty := List.isEmpty_iff.mpr hpm
        rw [if_pos hm]
        exact List.mem_singleton.mpr rfl
    | some b =>
        obtain ⟨hb, hcond⟩ := hpm
        have hbf : b ∈ r.filter (fun b2 => onCond a b2) :=
          List.mem_filter.mpr ⟨hb, hcond⟩
        have hm : ¬ (r.filter (fun b2 => onCond a b2)).isEmpty := by
          rw [List.isEmpty_iff]
          intro hnil
          rw [hnil] at hbf
          exact absurd hbf (List.not_mem_nil b)
        rw [if_neg hm]
        exact List.mem_map.mpr ⟨b, hbf, rfl⟩

/-- Characterization of membership in an inner join. -/
lemma mem_innerJoin {l : List α} {r : List β} {onCond : α → β → Bool}
    {x : α × β} :
    x ∈ innerJoin l r onCond ↔ x.1 ∈ l ∧ x.2 ∈ r ∧ onCond x.1 x.2 = true := by
  obtain ⟨a, b⟩ := x
  unfold innerJoin
  rw [List.mem_flatMap]
  constructor
  · rintro ⟨a2, ha2, hx⟩
    rw [List.mem_map] at hx
    obtain ⟨b2, hb2, hx⟩ := hx
    rw [Prod.mk.injEq] at hx
    obtain ⟨rfl, rfl⟩ := hx
    rw [List.mem_filter] at hb2
    exact ⟨ha2, hb2.1, hb2.2⟩
  · rintro ⟨ha, hb, hcond⟩
    exact ⟨a, ha, List.mem_map.mpr ⟨b, List.mem_filter.mpr ⟨hb, hcond⟩, rfl⟩⟩

/-- Expansion of a single tract row through the three left joins of the
tract query. -/
def rowExpand (db : DB) (h : TractHpiRow) : List JRow :=
  leftJoin (leftJoin (leftJoin [h] db.fips_cbsa onFc) db.zip_attr onZa) db.cbsa onC

/-- A left join distributes over `flatMap` of its left operand. -/
lemma leftJoin_flatMap (l : List γ) (f : γ → List α) (r : List β)
    (onCond : α → β → Bool) :
    leftJoin (l.flatMap f) r onCond = l.flatMap (fun a => leftJoin (f a) r onCond) := by
  unfold leftJoin
  rw [List.flatMap_assoc]

/-- The joined FROM clause of the tract query is the expansion of each
tract row in turn. -/
lemma joinedRows_eq_flatMap (db : DB) :
    joinedRows db = db.hpi_tract.flatMap (rowExpand db) := by
  unfold joinedRows rowExpand
  conv_lhs =>
    rw [show db.hpi_tract = db.hpi_tract.flatMap (fun h => [h]) from
      (List.flatMap_singleton' _).symm]
  rw [leftJoin_flatMap, leftJoin_flatMap, leftJoin_flatMap]

/-- Every row in the expansion of a tract row carries that tract row. -/
lemma rowExpand_h {db : DB} {h : TractHpiRow} {jr : JRow}
    (hjr : jr ∈ rowExpand db h) : jr.h = h := by
  have h3 := mem_leftJoin.mp hjr
  have h2 := mem_leftJoin.mp h3.1
  have h1 := mem_leftJoin.mp h2.1
  exact List.mem_singleton.mp h1.1

/-- Characterization of membership in the joined FROM clause of the
tract query. -/
lemma mem_joinedRows {db : DB} {jr : JRow} :
    jr ∈ joinedRows db ↔
      jr.h ∈ db.hpi_tract ∧
      padMatch db.fips_cbsa (onFc jr.h) jr.1.1.2 ∧
      padMatch db.zip_attr (onZa jr.1.1) jr.za ∧
      padMatch db.cbsa (onC jr.1) jr.c := by
  constructor
  · intro hm
    have h3 := mem_leftJoin.mp hm
    have h2 := mem_leftJoin.mp h3.1
    have h1 := mem_leftJoin.mp h2.1
    exact ⟨h1.1, h1.2, h2.2, h3.2⟩
  · rintro ⟨hh, hfc, hza, hc⟩
    apply mem_leftJoin.mpr
    refine ⟨?_, hc⟩
    apply mem_leftJoin.mpr
    refine ⟨?_, hza⟩
    exact mem_leftJoin.mpr ⟨hh, hfc⟩

/-! ### Grouping and aggregate lemmas -/

/-- The rows of the group with key `k`. -/
def groupRows (db : DB) (pat : String) (k : Option String × String) : List JRow :=
  (filteredRows db pat).filter (fun jr => decide (keyOf jr = k))

/-- Membership in the grouped CTE: every aggregated row is `mkAgg` of
some key occurring among the filtered rows. -/
lemma mem_hpi_per_tract {db : DB} {pat : String} {ag : AggRow} :
    ag ∈ hpi_per_tract db pat ↔
      ∃ k ∈ ((filteredRows db pat).map keyOf).dedup,
        mkAgg k (groupRows db pat k) = ag := by
  unfold hpi_per_tract perTractOf groupRows
  exact List.mem_map

/-- A key occurring among the filtered rows has a nonempty group all of
whose rows pass the WHERE filter and share the key. -/
lemma groupRows_spec {db : DB} {pat : String} {k : Option String × String}
    (hk : k ∈ ((filteredRows db pat).map keyOf).dedup) :
    groupRows db pat k ≠ [] ∧
      ∀ jr ∈ groupRows db pat k,
        jr ∈ joinedRows db ∧ whereP pat jr = true ∧ keyOf jr = k := by
  rw [List.mem_dedup, List.mem_map] at hk
  obtain ⟨jr0, hjr0, hkey0⟩ := hk
  constructor
  · intro hnil
    have : jr0 ∈ groupRows db pat k := by
      unfold groupRows
      rw [List.mem_filter]
      exact ⟨hjr0, decide_eq_true hkey0⟩
    rw [hnil] at this
    exact absurd this (List.not_mem_nil jr0)
  · intro jr hjr
    unfold groupRows at hjr
    rw [List.mem_filter] at hjr
    have hmemf := hjr.1
    unfold filteredRows at hmemf
    rw [List.mem_filter] at hmemf
    exact ⟨hmemf.1, hmemf.2, of_decide_eq_true hjr.2⟩

/-! ### Extrema of lists of rationals -/

/-- The fold computing a minimum yields an element of the list. -/
lemma foldl_min_mem (l : List ℚ) : ∀ x : ℚ, l.foldl min x ∈ x :: l := by
  induction l with
  | nil =>
      intro x
      exact List.mem_singleton.mpr rfl
  | cons a l ih =>
      intro x
      rw [List.foldl_cons]
      rcases List.mem_cons.mp (ih (min x a)) with h | h
      · rcases min_choice x a with hc | hc
        · rw [h, hc]
          exact List.mem_cons_self _ _
        · rw [h, hc]
          exact List.mem_cons_of_mem _ (List.mem_cons_self _ _)
      · exact List.mem_cons_of_mem _ (List.mem_cons_of_mem _ h)

/-- The fold computing a minimum is a lower bound of the list. -/
lemma foldl_min_le (l : List ℚ) : ∀ x : ℚ, ∀ y ∈ x :: l, l.foldl min x ≤ y := by
  induction l with
  | nil =>
      intro x y hy
      rw [List.foldl_nil]
      exact le_of_eq (List.mem_singleton.mp hy).symm
  | cons a l ih =>
      intro x y hy
      rw [List.foldl_cons]
      rcases List.mem_cons.mp hy with hxy | hy2
      · rw [hxy]
        exact le_trans (ih (min x a) (min x a) (List.mem_cons_self _ _)) (min_le_left _ _)
      · rcases List.mem_cons.mp hy2 with hxy | hy3
        · rw [hxy]
          exact le_trans (ih (min x a) (min x a) (List.mem_cons_self _ _)) (min_le_right _ _)
        · exact ih (min x a) y (List.mem_cons_of_mem _ hy3)

/-- The fold computing a maximum yields an element of the list. -/
lemma foldl_max_mem (l : List ℚ) : ∀ x : ℚ, l.foldl max x ∈ x :: l := by
  induction l with
  | nil =>
      intro x
      exact List.mem_singleton.mpr rfl
  | cons a l ih =>
      intro x
      rw [List.foldl_cons]
      rcases List.mem_cons.mp (ih (max x a)) with h | h
      · rcases max_choice x a with hc | hc
        · rw [h, hc]
          exact List.mem_cons_self _ _
        · rw [h, hc]
          exact List.mem_cons_of_mem _ (List.mem_cons_self _ _)
      · exact List.mem_cons_of_mem _ (List.mem_cons_of_mem _ h)

/-- The fold computing a maximum is an upper bound of the list. -/
lemma foldl_max_ge (l : List ℚ) : ∀ x : ℚ, ∀ y ∈ x :: l, y ≤ l.foldl max x := by
  induction l with
  | nil =>
      intro x y hy
      rw [List.foldl_nil]
      exact le_of_eq (List.mem_singleton.mp hy)
  | cons a l ih =>
      intro x y hy
      rw [List.foldl_cons]
      rcases List.mem_cons.mp hy with hxy | hy2
      · rw [hxy]
        exact le_trans (le_max_left _ _) (ih (max x a) (max x a) (List.mem_cons_self _ _))
      · rcases List.mem_cons.mp hy2 with hxy | hy3
        · rw [hxy]
          exact le_trans (le_max_right _ _) (ih (max x a) (max x a) (List.mem_cons_self _ _))
        · exact ih (max x a) y (List.mem_cons_of_mem _ hy3)

/-- Specification of `listMin` on a nonempty list. -/
lemma listMin_spec {l : List ℚ} (hl : l ≠ []) :
    ∃ m, listMin l = some m ∧ m ∈ l ∧ ∀ y ∈ l, m ≤ y := by
  match l, hl with
  | x :: xs, _ =>
      exact ⟨xs.foldl min x, rfl, foldl_min_mem xs x, foldl_min_le xs x⟩

/-- Specification of `listMax` on a nonempty list. -/
lemma listMax_spec {l : List ℚ} (hl : l ≠ []) :
    ∃ m, listMax l = some m ∧ m ∈ l ∧ ∀ y ∈ l, y ≤ m := by
  match l, hl with
  | x :: xs, _ =>
      exact ⟨xs.foldl max x, rfl, foldl_max_mem xs x, foldl_max_ge xs x⟩

/-! ### WHERE predicate components -/

/-- A cell passing the positive-HPI test parses to a positive rational. -/
lemma hpiPosCell_spec {c : Option String} (h : hpiPosCell c = true) :
    ∃ q, tryCastFloat c = some q ∧ 0 < q := by
  unfold hpiPosCell at h
  cases hc : tryCastFloat c with
  | none =>
      rw [hc] at h
      exact absurd h (by simp)
  | some q =>
      rw [hc] at h
      exact ⟨q, rfl, of_decide_eq_true h⟩

/-- A cell passing the year-window test parses to a year in the window. -/
lemma yearInWindow_spec {c : Option String} (h : yearInWindow c = true) :
    ∃ y, tryCastInt c = some y ∧ 2005 ≤ y ∧ y ≤ 2013 := by
  unfold yearInWindow at h
  cases hc : tryCastInt c with
  | none =>
      rw [hc] at h
      exact absurd h (by simp)
  | some y =>
      rw [hc, Bool.and_eq_true] at h
      exact ⟨y, rfl, of_decide_eq_true h.1, of_decide_eq_true h.2⟩

/-- A row passing the name test carries a CBSA row whose name matches
the ILIKE pattern. -/
lemma cbsaNameOk_spec {pat : String} {c? : Option CbsaRow}
    (h : cbsaNameOk pat c? = true) :
    ∃ row n, c? = some row ∧ row.name = some n ∧ ilike pat n = true := by
  cases c? with
  | none =>
      simp only [cbsaNameOk] at h
      exact absurd h (by simp)
  | some row =>
      cases hn : row.name with
      | none =>
          simp only [cbsaNameOk, hn] at h
          exact absurd h (by simp)
      | some n =>
          simp only [cbsaNameOk, hn] at h
          exact ⟨row, n, rfl, hn, h⟩

/-- Decomposition of the WHERE predicate of the tract query. -/
lemma whereP_spec {pat : String} {jr : JRow} (h : whereP pat jr = true) :
    cbsaNameOk pat jr.c = true ∧ yearInWindow jr.h.year = true ∧
      hpiPosCell jr.h.hpi = true := by
  unfold whereP at h
  rw [Bool.and_eq_true, Bool.and_eq_true] at h
  exact ⟨h.1.1, h.1.2, h.2⟩

/-! ### Positivity of group extrema -/

/-- The parsed HPI values of a nonempty group are a nonempty list of
positive rationals. -/
lemma hpiVals_groupRows_spec {db : DB} {pat : String} {k : Option String × String}
    (hk : k ∈ ((filteredRows db pat).map keyOf).dedup) :
    hpiVals (groupRows db pat k) ≠ [] ∧
      ∀ q ∈ hpiVals (groupRows db pat k), 0 < q := by
  obtain ⟨hne, hall⟩ := groupRows_spec hk
  constructor
  · obtain ⟨jr0, hjr0⟩ := List.exists_mem_of_ne_nil _ hne
    obtain ⟨_, hw0, _⟩ := hall jr0 hjr0
    obtain ⟨q0, hq0, _⟩ := hpiPosCell_spec (whereP_spec hw0).2.2
    have : q0 ∈ hpiVals (groupRows db pat k) :=
      List.mem_filterMap.mpr ⟨jr0, hjr0, hq0⟩
    exact List.ne_nil_of_mem this
  · intro q hq
    obtain ⟨jr, hjr, hcast⟩ := List.mem_filterMap.mp hq
    obtain ⟨_, hw, _⟩ := hall jr hjr
    obtain ⟨q2, hq2, hq2pos⟩ := hpiPosCell_spec (whereP_spec hw).2.2
    rw [hq2] at hcast
    rw [← Option.some_inj.mp hcast]
    exact hq2pos

/-- Central helper: every grouped row carries present extremes with
`0 < min_hpi`, `0 < max_hpi` and `min_hpi ≤ max_hpi`. -/
lemma agg_extrema {db : DB} {pat : String} {ag : AggRow}
    (hag : ag ∈ hpi_per_tract db pat) :
    ∃ mn mx, ag.min_hpi = some mn ∧ ag.max_hpi = some mx ∧
      0 < mn ∧ 0 < mx ∧ mn ≤ mx := by
  obtain ⟨k, hk, hmk⟩ := mem_hpi_per_tract.mp hag
  obtain ⟨hvne, hvpos⟩ := hpiVals_groupRows_spec hk
  obtain ⟨mn, hmn, hmnmem, hmnle⟩ := listMin_spec hvne
  obtain ⟨mx, hmx, hmxmem, hmxge⟩ := listMax_spec hvne
  refine ⟨mn, mx, ?_, ?_, hvpos mn hmnmem, hvpos mx hmxmem, hmnle mx hmxmem⟩
  · rw [← hmk]
    exact hmn
  · rw [← hmk]
    exact hmx

/-! ### The final SELECT of the tract query -/

/-- Membership in the tract-query result decomposes through the
grouped CTE. -/
lemma mem_aggregateByTract {db : DB} {pat : String} {r : OutRow} :
    r ∈ aggregateByTract db pat ↔
      ∃ ag ∈ hpi_per_tract db pat, r ∈ finalRows db ag := by
  unfold aggregateByTract
  exact List.mem_flatMap

/-- Every output row copies the aggregate fields of its group and
derives `hpi_loss` from them. -/
lemma mem_finalRows {db : DB} {ag : AggRow} {r : OutRow}
    (hr : r ∈ finalRows db ag) :
    r.cbsa_name = ag.cbsa_name ∧ r.fips = ag.fips ∧ r.latitude = ag.latitude ∧
      r.longitude = ag.longitude ∧ r.population = ag.population ∧
      r.min_hpi = ag.min_hpi ∧ r.max_hpi = ag.max_hpi ∧ r.hpi_loss = lossOf ag := by
  simp only [finalRows, List.mem_flatMap, List.mem_map] at hr
  obtain ⟨my, hmy, xy, hxy, hr⟩ := hr
  rw [← hr]
  exact ⟨rfl, rfl, rfl, rfl, rfl, rfl, rfl, rfl⟩

/-- The final SELECT emits at least one output row per group. -/
lemma finalRows_ne_nil (db : DB) (ag : AggRow) : finalRows db ag ≠ [] := by
  unfold finalRows
  intro h
  rw [List.flatMap_eq_nil_iff] at h
  have hmins : (if matchesMin db ag = [] then [(none : Option String)]
      else (matchesMin db ag).map TractHpiRow.year) ≠ [] := by
    by_cases hc : matchesMin db ag = []
    · rw [if_pos hc]
      exact List.cons_ne_nil _ _
    · rw [if_neg hc]
      intro hmap
      exact hc (List.map_eq_nil_iff.mp hmap)
  obtain ⟨my, hmy⟩ := List.exists_mem_of_ne_nil _ hmins
  have := h my hmy
  rw [List.map_eq_nil_iff] at this
  by_cases hc : matchesMax db ag = []
  · rw [if_pos hc] at this
    exact List.cons_ne_nil _ _ this
  · rw [if_neg hc] at this
    rw [List.map_eq_nil_iff] at this
    exact hc this

/-! ### Claim C1 -/

/-- Claim C1: for every row returned by the tract aggregation for any
selected CBSA, `max_hpi` is present and positive (so the division in
`hpi_loss` is well-defined), `min_hpi ≤ max_hpi`, and
`hpi_loss = min_hpi / max_hpi - 1 ≤ 0`. -/
theorem tract_loss_wellformed (db : DB) (pat : String) (r : OutRow)
    (hr : r ∈ aggregateByTract db pat) :
    ∃ mn mx, r.min_hpi = some mn ∧ r.max_hpi = some mx ∧ 0 < mx ∧ mn ≤ mx ∧
      r.hpi_loss = some (mn / mx - 1) ∧ mn / mx - 1 ≤ 0 := by
  obtain ⟨ag, hag, hfin⟩ := mem_aggregateByTract.mp hr
  obtain ⟨mn, mx, hmn, hmx, hmnpos, hmxpos, hle⟩ := agg_extrema hag
  obtain ⟨_, _, _, _, _, hminf, hmaxf, hloss⟩ := mem_finalRows hfin
  refine ⟨mn, mx, by rw [hminf, hmn], by rw [hmaxf, hmx], hmxpos, hle, ?_, ?_⟩
  · rw [hloss]
    simp only [lossOf, hmn, hmx]
    rw [qSub_eq, qDiv_eq]
  · have h1 : mn / mx ≤ 1 := (div_le_one hmxpos).mpr hle
    linarith

/-- One row of the tract aggregation of the example database `dbA`. -/
def rowA : OutRow :=
  { cbsa_name := some "Metro", fips := "11111", latitude := some 20,
    longitude := some (-67), population := some 800, min_hpi := some 80,
    max_hpi := some 120, min_year := some "2006", max_year := some "2007",
    hpi_loss := some (mkRat (-1) 3) }

/-- Witness for claim C1 at the concrete database `dbA`. -/
theorem tract_loss_wellformed_witness :
    ∃ mn mx, rowA.min_hpi = some mn ∧ rowA.max_hpi = some mx ∧ 0 < mx ∧
      mn ≤ mx ∧ rowA.hpi_loss = some (mn / mx - 1) ∧ mn / mx - 1 ≤ 0 :=
  tract_loss_wellformed dbA "Metro" rowA (by decide)

/-! ### Claim C10 -/

/-- Claim C10: in every returned tract row, `min_hpi` and `max_hpi` are
non-null, while `latitude`, `longitude` and `population` may be null
when no ZIP-attribute row matches the county FIPS — such a row is still
returned (left joins), as the concrete database `db10` shows. -/
theorem tract_row_nullability :
    (∀ (db : DB) (pat : String) (r : OutRow), r ∈ aggregateByTract db pat →
        r.min_hpi.isSome = true ∧ r.max_hpi.isSome = true) ∧
      ∃ r ∈ aggregateByTract db10 "Lonelyville",
        r.latitude = none ∧ r.longitude = none ∧ r.population = none := by
  constructor
  · intro db pat r hr
    obtain ⟨ag, hag, hfin⟩ := mem_aggregateByTract.mp hr
    obtain ⟨mn, mx, hmn, hmx, _⟩ := agg_extrema hag
    obtain ⟨_, _, _, _, _, hminf, hmaxf, _⟩ := mem_finalRows hfin
    constructor
    · rw [hminf, hmn]
      rfl
    · rw [hmaxf, hmx]
      rfl
  · decide

/-- The single tract row of the aggregation of `db10`. -/
def rowL : OutRow :=
  { cbsa_name := some "Lonelyville", fips := "55555", latitude := none,
    longitude := none, population := none, min_hpi := some 100,
    max_hpi := some 100, min_year := some "2006", max_year := some "2006",
    hpi_loss := some 0 }

/-- Witness for claim C10 at the concrete database `db10`. -/
theorem tract_row_nullability_witness :
    rowL.min_hpi.isSome = true ∧ rowL.max_hpi.isSome = true :=
  tract_row_nullability.1 db10 "Lonelyville" rowL (by decide)

/-! ### Claim C3 -/

/-- Counterexample to claim C3: in `db3` two in-window years tie at the
minimum HPI, so the final equality joins emit two output rows with the
same `(cbsa_name, fips)` pair. -/
theorem tract_key_duplicate_cex :
    ((aggregateByTract db3 "Dupton").map (fun r => (r.cbsa_name, r.fips))) =
        [(some "Dupton", "33333"), (some "Dupton", "33333")] ∧
      ¬ ((aggregateByTract db3 "Dupton").map (fun r => (r.cbsa_name, r.fips))).Nodup := by
  constructor
  · rfl
  · decide

/-- Claim C3 amended: the grouped CTE (before the year-annotation
joins) has exactly one row per `(cbsa_name, fips)` pair, and every
group yields at least one output row with that pair; the final
equality joins may duplicate a pair when several raw rows tie on an
extreme value. -/
theorem tract_key_unique_amended (db : DB) (pat : String) :
    ((hpi_per_tract db pat).map (fun ag => (ag.cbsa_name, ag.fips))).Nodup ∧
      ∀ ag ∈ hpi_per_tract db pat, ∃ r ∈ aggregateByTract db pat,
        r.cbsa_name = ag.cbsa_name ∧ r.fips = ag.fips := by
  constructor
  · have hmap : (hpi_per_tract db pat).map (fun ag => (ag.cbsa_name, ag.fips)) =
        ((filteredRows db pat).map keyOf).dedup := by
      unfold hpi_per_tract perTractOf
      rw [List.map_map]
      rw [show ((fun ag : AggRow => (ag.cbsa_name, ag.fips)) ∘
          (fun k => mkAgg k ((filteredRows db pat).filter
            (fun jr => decide (keyOf jr = k))))) = id from rfl]
      rw [List.map_id]
    rw [hmap]
    exact List.nodup_dedup _
  · intro ag hag
    obtain ⟨r, hr⟩ := List.exists_mem_of_ne_nil _ (finalRows_ne_nil db ag)
    obtain ⟨hn, hf, _⟩ := mem_finalRows hr
    exact ⟨r, mem_aggregateByTract.mpr ⟨ag, hag, hr⟩, hn, hf⟩

/-- The grouped row of the aggregation of `db3`. -/
def agD : AggRow :=
  { cbsa_name := some "Dupton", fips := "33333", latitude := none,
    longitude := none, population := none, min_hpi := some 100,
    max_hpi := some 120 }

/-- Witness for the amended claim C3 at the concrete database `db3`. -/
theorem tract_key_unique_amended_witness :
    ∃ r ∈ aggregateByTract db3 "Dupton",
      r.cbsa_name = agD.cbsa_name ∧ r.fips = agD.fips :=
  (tract_key_unique_amended db3 "Dupton").2 agD (by decide)

/-! ### Filter invariance infrastructure -/

/-- Pre-filtering the generating list does not change a filtered
`flatMap` when the dropped generators only produce rejected elements. -/
lemma flatMap_filter_of_false {l : List α} {f : α → List β} {p : α → Bool}
    {q : β → Bool} (h : ∀ a, p a = false → ∀ x ∈ f a, q x = false) :
    ((l.filter p).flatMap f).filter q = (l.flatMap f).filter q := by
  induction l with
  | nil => rfl
  | cons a l ih =>
      by_cases hp : p a = true
      · rw [List.filter_cons_of_pos hp, List.flatMap_cons, List.flatMap_cons,
          List.filter_append, List.filter_append, ih]
      · have hp2 : p a = false := Bool.eq_false_iff.mpr hp
        have hnil : (f a).filter q = [] := by
          rw [List.filter_eq_nil_iff]
          intro x hx
          rw [h a hp2 x hx]
          exact Bool.false_ne_true
        rw [List.filter_cons_of_neg hp, List.flatMap_cons, List.filter_append,
          hnil, List.nil_append, ih]

/-- Pre-filtering the `hpi_tract` table does not change the filtered
FROM clause of the tract query when every dropped row fails the WHERE
predicate. -/
lemma filteredRows_filter_invariant {db : DB} {pat : String}
    {p : TractHpiRow → Bool}
    (hp : ∀ h, p h = false → ∀ jr ∈ rowExpand db h, whereP pat jr = false) :
    filteredRows { db with hpi_tract := db.hpi_tract.filter p } pat =
      filteredRows db pat := by
  unfold filteredRows
  rw [joinedRows_eq_flatMap, joinedRows_eq_flatMap]
  exact flatMap_filter_of_false hp

/-! ### Claim C2 -/

/-- Counterexample to claim C2: in `db2` the out-of-window 2004 row
(HPI 100) ties the in-window minimum, reaches the output through the
unfiltered year-annotation join as `min_year = 2004`, and removing the
out-of-window rows changes the result. -/
theorem year_window_leak_cex :
    (aggregateByTract db2 "Testville").map OutRow.min_year =
        [some "2005", some "2004"] ∧
      (aggregateByTract
          { db2 with hpi_tract := db2.hpi_tract.filter (fun h => yearInWindow h.year) }
          "Testville").map OutRow.min_year = [some "2005"] :=
  ⟨rfl, rfl⟩

/-- Claim C2 amended: rows with a year outside [2005, 2013] never
contribute to the grouped aggregation stage (the groups and their
`latitude`, `longitude`, `population`, `min_hpi`, `max_hpi` are
unchanged when such rows are removed); they can, however, still supply
`min_year` / `max_year` through the final join against the unfiltered
table. -/
theorem year_window_grouped_amended (db : DB) (pat : String) :
    hpi_per_tract
        { db with hpi_tract := db.hpi_tract.filter (fun h => yearInWindow h.year) }
        pat = hpi_per_tract db pat := by
  unfold hpi_per_tract
  rw [filteredRows_filter_invariant]
  intro h hfalse jr hjr
  have hh := rowExpand_h hjr
  unfold whereP
  rw [hh, hfalse]
  simp

/-! ### Claim C4 -/

/-- SQL equality of nullable numeric cells holds exactly when both are
present and equal. -/
lemma eqOptQ_spec {a b : Option ℚ} :
    eqOptQ a b = true ↔ ∃ x, a = some x ∧ b = some x := by
  cases a <;> cases b <;> simp [eqOptQ, eq_comm]

/-- Generic filter absorption: filtering by `c` ignores a pre-filter by
`p` whenever `c` implies `p`. -/
lemma filter_sub_filter {l : List α} {p c : α → Bool}
    (h : ∀ a, c a = true → p a = true) :
    (l.filter p).filter c = l.filter c := by
  induction l with
  | nil => rfl
  | cons a l ih =>
      by_cases hc : c a = true
      · rw [List.filter_cons_of_pos (h a hc), List.filter_cons_of_pos hc,
          List.filter_cons_of_pos hc, ih]
      · by_cases hp : p a = true
        · rw [List.filter_cons_of_pos hp, List.filter_cons_of_neg hc,
            List.filter_cons_of_neg hc, ih]
        · rw [List.filter_cons_of_neg hp, List.filter_cons_of_neg hc, ih]

/-- Rows failing the positive-parse test never match the `hmin` join
condition of a real group. -/
lemma matchesMin_filter_pos {db : DB} {pat : String} {ag : AggRow}
    (hag : ag ∈ hpi_per_tract db pat) :
    matchesMin { db with hpi_tract := db.hpi_tract.filter (fun h => hpiPosCell h.hpi) }
        ag = matchesMin db ag := by
  unfold matchesMin
  apply filter_sub_filter
  intro rrow hc
  rw [Bool.and_eq_true] at hc
  obtain ⟨q, hcast, hqmin⟩ := eqOptQ_spec.mp hc.2
  obtain ⟨mn, mx, hmn, _, hmnpos, _⟩ := agg_extrema hag
  unfold hpiPosCell
  rw [hcast]
  have : q = mn := by
    rw [hmn] at hqmin
    exact (Option.some_inj.mp hqmin).symm
  rw [this]
  exact decide_eq_true hmnpos

/-- Rows failing the positive-parse test never match the `hmax` join
condition of a real group. -/
lemma matchesMax_filter_pos {db : DB} {pat : String} {ag : AggRow}
    (hag : ag ∈ hpi_per_tract db pat) :
    matchesMax { db with hpi_tract := db.hpi_tract.filter (fun h => hpiPosCell h.hpi) }
        ag = matchesMax db ag := by
  unfold matchesMax
  apply filter_sub_filter
  intro rrow hc
  rw [Bool.and_eq_true] at hc
  obtain ⟨q, hcast, hqmax⟩ := eqOptQ_spec.mp hc.2
  obtain ⟨mn, mx, _, hmx, _, hmxpos, _⟩ := agg_extrema hag
  unfold hpiPosCell
  rw [hcast]
  have : q = mx := by
    rw [hmx] at hqmax
    exact (Option.some_inj.mp hqmax).symm
  rw [this]
  exact decide_eq_true hmxpos

/-- The final SELECT depends on the database only through the two
match lists. -/
lemma finalRows_congr {db1 db2 : DB} {ag : AggRow}
    (h1 : matchesMin db1 ag = matchesMin db2 ag)
    (h2 : matchesMax db1 ag = matchesMax db2 ag) :
    finalRows db1 ag = finalRows db2 ag := by
  unfold finalRows
  rw [h1, h2]

/-- Claim C4: rows whose HPI cell is non-numeric or parses to a value
that is not positive are excluded from the whole aggregation (removing
them changes nothing), and on the concrete tract with HPI cells
`[120, "N/A", -5, 80]` the computed extremes are `min_hpi = 80`,
`max_hpi = 120`. -/
theorem hpi_parse_filtering :
    (∀ (db : DB) (pat : String),
        aggregateByTract
            { db with hpi_tract := db.hpi_tract.filter (fun h => hpiPosCell h.hpi) }
            pat = aggregateByTract db pat) ∧
      (aggregateByTract db4 "Fourcity").map (fun r => (r.min_hpi, r.max_hpi)) =
        [(some 80, some 120)] := by
  constructor
  · intro db pat
    unfold aggregateByTract
    have hpt : hpi_per_tract
        { db with hpi_tract := db.hpi_tract.filter (fun h => hpiPosCell h.hpi) } pat =
        hpi_per_tract db pat := by
      unfold hpi_per_tract
      rw [filteredRows_filter_invariant]
      intro h hfalse jr hjr
      have hh := rowExpand_h hjr
      unfold whereP
      rw [hh, hfalse]
      simp
    rw [hpt]
    apply List.flatMap_congr
    intro ag hag
    exact finalRows_congr (matchesMin_filter_pos hag) (matchesMax_filter_pos hag)
  · rfl

/-! ### Claim C9 -/

/-- Counterexample to claim C9: the stored name is matched with SQL
ILIKE semantics, where the selected string is a pattern; the pattern
`%` matches the stored name `Metro` (and selects its rows in the tract
aggregation) although the two strings are not equal up to letter
case. -/
theorem ilike_wildcard_cex :
    ilike "%" "Metro" = true ∧
      "%".toList.map lowerChar ≠ "Metro".toList.map lowerChar ∧
      (aggregateByTract dbA "%").map OutRow.cbsa_name = [some "Metro"] :=
  ⟨rfl, by decide, rfl⟩

/-- A LIKE pattern without wildcards matches exactly itself. -/
lemma likeMatch_no_wild : ∀ p s : List Char, '%' ∉ p → '_' ∉ p →
    (likeMatch p s = true ↔ p = s) := by
  intro p
  induction p with
  | nil =>
      intro s _ _
      constructor
      · intro h
        exact (List.isEmpty_iff.mp h).symm
      · intro h
        rw [← h]
        rfl
  | cons c p ih =>
      intro s hpct hus
      have hc1 : ¬ c = '%' := fun hc => hpct (by rw [hc]; exact List.mem_cons_self _ _)
      have hc2 : ¬ c = '_' := fun hc => hus (by rw [hc]; exact List.mem_cons_self _ _)
      have hpct2 : '%' ∉ p := fun h => hpct (List.mem_cons_of_mem _ h)
      have hus2 : '_' ∉ p := fun h => hus (List.mem_cons_of_mem _ h)
      cases s with
      | nil =>
          simp only [likeMatch, if_neg hc1]
          constructor
          · intro h
            exact absurd h (by simp)
          · intro h
            exact absurd h (by simp)
      | cons c2 s2 =>
          simp only [likeMatch, if_neg hc1, if_neg hc2, Bool.and_eq_true,
            decide_eq_true_eq, List.cons.injEq]
          rw [ih s2 hpct2 hus2]

/-- Lower-casing a letter gives a code in 97–122, and any other
character is unchanged. -/
lemma lowerChar_spec (c : Char) :
    (65 ≤ c.toNat ∧ c.toNat ≤ 90 ∧ (lowerChar c).toNat = c.toNat + 32) ∨
      lowerChar c = c := by
  unfold lowerChar
  split_ifs with hc
  · refine Or.inl ⟨hc.1, hc.2, ?_⟩
    unfold Char.ofNat
    rw [dif_pos (Or.inl (by omega))]
    rfl
  · exact Or.inr rfl

/-- Lower-casing maps only `%` to `%`. -/
lemma lowerChar_pct {c : Char} (h : lowerChar c = '%') : c = '%' := by
  rcases lowerChar_spec c with ⟨h1, h2, h3⟩ | heq
  · exfalso
    rw [h] at h3
    have h4 : ('%').toNat = 37 := rfl
    rw [h4] at h3
    omega
  · rw [← heq]
    exact h

/-- Lower-casing maps only `_` to `_`. -/
lemma lowerChar_us {c : Char} (h : lowerChar c = '_') : c = '_' := by
  rcases lowerChar_spec c with ⟨h1, h2, h3⟩ | heq
  · exfalso
    rw [h] at h3
    have h4 : ('_').toNat = 95 := rfl
    rw [h4] at h3
    omega
  · rw [← heq]
    exact h

/-- A pattern without `%` keeps that property after lower-casing. -/
lemma pct_not_mem_map {p : List Char} (h : '%' ∉ p) : '%' ∉ p.map lowerChar := by
  intro hm
  obtain ⟨c, hc, hlc⟩ := List.mem_map.mp hm
  exact h (lowerChar_pct hlc ▸ hc)

/-- A pattern without `_` keeps that property after lower-casing. -/
lemma us_not_mem_map {p : List Char} (h : '_' ∉ p) : '_' ∉ p.map lowerChar := by
  intro hm
  obtain ⟨c, hc, hlc⟩ := List.mem_map.mp hm
  exact h (lowerChar_us hlc ▸ hc)

/-- Claim C9 amended: both queries match the stored name against the
selected string with SQL ILIKE pattern semantics; whenever the selected
string contains neither `%` nor `_`, this is exactly case-insensitive
equality of the two strings. -/
theorem ilike_no_wildcard_amended (pat n : String) (code : Option String)
    (h1 : '%' ∉ pat.toList) (h2 : '_' ∉ pat.toList) :
    cbsaNameOk pat (some { code := code, name := some n }) = true ↔
      pat.toList.map lowerChar = n.toList.map lowerChar := by
  show ilike pat n = true ↔ _
  unfold ilike
  exact likeMatch_no_wild _ _ (pct_not_mem_map h1) (us_not_mem_map h2)

/-- Witness for the amended claim C9: `Metro` matches `METRO`
case-insensitively. -/
theorem ilike_no_wildcard_amended_witness :
    cbsaNameOk "Metro" (some { code := none, name := some "METRO" }) = true :=
  (ilike_no_wildcard_amended "Metro" "METRO" none (by decide) (by decide)).mpr
    (by decide)

/-! ### Claim C5 -/

/-- One step of the `idxmax` fold takes the measure maximum. -/
lemma pick_max_eq (f : α → ℚ) (x a : α) :
    f (if f x < f a then a else x) = max (f x) (f a) := by
  split_ifs with h
  · exact (max_eq_right (le_of_lt h)).symm
  · exact (max_eq_left (le_of_not_lt h)).symm

/-- One step of the `idxmin` fold takes the measure minimum. -/
lemma pick_min_eq (f : α → ℚ) (x a : α) :
    f (if f a < f x then a else x) = min (f x) (f a) := by
  split_ifs with h
  · exact (min_eq_right (le_of_lt h)).symm
  · exact (min_eq_left (le_of_not_lt h)).symm

/-- The measure of the `idxmax` fold result is the folded maximum of
the measures. -/
lemma foldl_argmax_measure (f : α → ℚ) (l : List α) :
    ∀ x, f (l.foldl (fun b y => if f b < f y then y else b) x) =
      (l.map f).foldl max (f x) := by
  induction l with
  | nil => intro x; rfl
  | cons a l ih =>
      intro x
      rw [List.foldl_cons, List.map_cons, List.foldl_cons, ih, pick_max_eq f x a]

/-- The measure of the `idxmin` fold result is the folded minimum of
the measures. -/
lemma foldl_argmin_measure (f : α → ℚ) (l : List α) :
    ∀ x, f (l.foldl (fun b y => if f y < f b then y else b) x) =
      (l.map f).foldl min (f x) := by
  induction l with
  | nil => intro x; rfl
  | cons a l ih =>
      intro x
      rw [List.foldl_cons, List.map_cons, List.foldl_cons, ih, pick_min_eq f x a]

/-- Claim C5: the chart's reported percentage drop for a year series is
`(minAvg - maxAvg) / maxAvg * 100` computed over the global minimum and
global maximum of the series values, regardless of temporal order. -/
theorem percent_loss_global_extrema (s : List (ℤ × ℚ)) (hs : s ≠ []) :
    ∃ mx mn, listMax (s.map Prod.snd) = some mx ∧
      listMin (s.map Prod.snd) = some mn ∧
      percentLoss s = some ((mn - mx) / mx * 100) := by
  match s, hs with
  | p :: t, _ =>
      refine ⟨(t.map Prod.snd).foldl max p.2, (t.map Prod.snd).foldl min p.2,
        rfl, rfl, ?_⟩
      unfold percentLoss argmaxBy argminBy
      dsimp only
      rw [qMul_eq, qDiv_eq, qSub_eq, foldl_argmax_measure Prod.snd t p, foldl_argmin_measure Prod.snd t p]

/-- Witness for claim C5: the example series from the specification
evaluates to the drop `(90 - 130) / 130 * 100`. -/
theorem percent_loss_global_extrema_witness :
    percentLoss [((2005:ℤ), (100:ℚ)), (2006, 130), (2007, 90)] =
      some ((90 - 130) / 130 * 100) := by
  obtain ⟨mx, mn, hmx, hmn, hp⟩ := percent_loss_global_extrema
    [((2005:ℤ), (100:ℚ)), (2006, 130), (2007, 90)] (by decide)
  have hmx2 : mx = 130 := by
    have h2 : listMax ([((2005:ℤ), (100:ℚ)), (2006, 130), (2007, 90)].map Prod.snd) =
        some 130 := by decide
    rw [h2] at hmx
    exact Option.some_inj.mp hmx.symm
  have hmn2 : mn = 90 := by
    have h2 : listMin ([((2005:ℤ), (100:ℚ)), (2006, 130), (2007, 90)].map Prod.snd) =
        some 90 := by decide
    rw [h2] at hmn
    exact Option.some_inj.mp hmn.symm
  rw [hp, hmx2, hmn2]

/-! ### Claim C8 -/

/-- A filter whose predicate returns `ok false` on every element
succeeds with the empty list. -/
lemma exceptFilter_all_false {p : α → Except String Bool} {l : List α}
    (h : ∀ x ∈ l, p x = Except.ok false) : exceptFilter p l = Except.ok [] := by
  induction l with
  | nil => rfl
  | cons a l ih =>
      unfold exceptFilter
      rw [h a (List.mem_cons_self _ _),
        ih (fun x hx => h x (List.mem_cons_of_mem _ hx))]
      rfl

/-- Claim C8: the `run_query` boundary turns any query failure into an
empty result plus a surfaced diagnostic (it never propagates an
exception), and a CBSA name matching no stored CBSA row yields an empty
sequence from both aggregation operations rather than an error. -/
theorem query_failure_and_empty_results :
    (∀ (q : Except String (List OutRow)),
        (∃ t, q = Except.ok t ∧ runQuery q = (t, none)) ∨
          (∃ e, q = Except.error e ∧
            runQuery q = ([], some ("Error running query: " ++ e)))) ∧
      ∀ (db : DB) (pat : String),
        (∀ c ∈ db.cbsa, cbsaNameOk pat (some c) = false) →
          aggregateByTract db pat = [] ∧ hpiByYear db pat = Except.ok [] := by
  constructor
  · intro q
    cases q with
    | ok t => exact Or.inl ⟨t, rfl, rfl⟩
    | error e => exact Or.inr ⟨e, rfl, rfl⟩
  · intro db pat hno
    have hfil : filteredRows db pat = [] := by
      unfold filteredRows
      rw [List.filter_eq_nil_iff]
      intro jr hjr hw
      obtain ⟨hname, _, _⟩ := whereP_spec hw
      obtain ⟨row, n, hrow, hn, _⟩ := cbsaNameOk_spec hname
      have hmem := (mem_joinedRows.mp hjr).2.2.2
      rw [hrow] at hmem
      have hfalse := hno row hmem.1
      rw [hrow, hfalse] at hname
      exact Bool.false_ne_true hname
    constructor
    · unfold aggregateByTract hpi_per_tract perTractOf
      rw [hfil]
      rfl
    · unfold hpiByYear
      have hfz : exceptFilter (zipWhereE pat) (zipJoined db) = Except.ok [] := by
        apply exceptFilter_all_false
        intro r hr
        have hc := (mem_innerJoin.mp hr).2.1
        unfold zipWhereE
        rw [if_neg ?_]
        rw [hno r.2 hc]
        exact Bool.false_ne_true
      rw [hfz]
      rfl

/-- Witness for claim C8: the name `Nowhere` matches no CBSA of `dbA`
and both operations return the empty sequence. -/
theorem query_failure_and_empty_results_witness :
    aggregateByTract dbA "Nowhere" = [] ∧ hpiByYear dbA "Nowhere" = Except.ok [] :=
  query_failure_and_empty_results.2 dbA "Nowhere" (by decide)

/-! ### Claim C6 -/

/-- Parsed population values of the ZIP-attribute rows whose county
FIPS matches a given county. -/
def countyPops (db : DB) (f : String) : List ℤ :=
  (db.zip_attr.filter (fun za => eqOptStr (some f) za.county_fips)).filterMap
    (fun za => tryCastInt za.population)

/-- The population values reachable inside a group are exactly the
parsed values of the ZIP-attribute rows matching the group's county. -/
lemma popVals_mem_iff {db : DB} {pat : String} {k : Option String × String}
    (hk : k ∈ ((filteredRows db pat).map keyOf).dedup) :
    ∀ v : ℤ, v ∈ popVals (groupRows db pat k) ↔ v ∈ countyPops db k.2 := by
  obtain ⟨hne, hall⟩ := groupRows_spec hk
  intro v
  constructor
  · intro hv
    obtain ⟨jr, hjr, hcast⟩ := List.mem_filterMap.mp hv
    cases hza : jr.za with
    | none =>
        rw [hza] at hcast
        exact absurd hcast (by simp)
    | some za =>
        rw [hza] at hcast
        obtain ⟨hjoined, hw, hkey⟩ := hall jr hjr
        have hzam := (mem_joinedRows.mp hjoined).2.2.1
        rw [hza] at hzam
        have hfips : (JRow.h jr).fips = k.2 := by
          have h2 := congrArg Prod.snd hkey
          simpa [keyOf] using h2
        apply List.mem_filterMap.mpr
        refine ⟨za, ?_, hcast⟩
        apply List.mem_filter.mpr
        refine ⟨hzam.1, ?_⟩
        have hcond : eqOptStr (some (JRow.h jr).fips) za.county_fips = true := hzam.2
        rw [hfips] at hcond
        exact hcond
  · intro hv
    obtain ⟨za, hzaf, hcast⟩ := List.mem_filterMap.mp hv
    rw [List.mem_filter] at hzaf
    obtain ⟨jr0, hjr0⟩ := List.exists_mem_of_ne_nil _ hne
    obtain ⟨hjoined0, hw0, hkey0⟩ := hall jr0 hjr0
    have hm0 := mem_joinedRows.mp hjoined0
    have hfips0 : (JRow.h jr0).fips = k.2 := by
      have h2 := congrArg Prod.snd hkey0
      simpa [keyOf] using h2
    have hjr2 : (((jr0.1.1, some za), jr0.2) : JRow) ∈ joinedRows db := by
      apply mem_joinedRows.mpr
      refine ⟨hm0.1, hm0.2.1, ?_, hm0.2.2.2⟩
      refine ⟨hzaf.1, ?_⟩
      show eqOptStr (some (JRow.h jr0).fips) za.county_fips = true
      rw [hfips0]
      exact hzaf.2
    have hgrp2 : (((jr0.1.1, some za), jr0.2) : JRow) ∈ groupRows db pat k := by
      unfold groupRows
      apply List.mem_filter.mpr
      constructor
      · unfold filteredRows
        apply List.mem_filter.mpr
        refine ⟨hjr2, ?_⟩
        show whereP pat jr0 = true
        exact hw0
      · exact decide_eq_true (show keyOf jr0 = k from hkey0)
    apply List.mem_filterMap.mpr
    refine ⟨((jr0.1.1, some za), jr0.2), hgrp2, ?_⟩
    show (some za).bind (fun za2 => tryCastInt za2.population) = some v
    exact hcast

/-- Two lists with the same members have the same distinct sum. -/
lemma sumDistinct_congr {l1 l2 : List ℤ} (h : ∀ v, v ∈ l1 ↔ v ∈ l2) :
    sumDistinct l1 = sumDistinct l2 := by
  unfold sumDistinct
  by_cases h1 : l1.isEmpty
  · have h1e : l1 = [] := List.isEmpty_iff.mp h1
    have h2e : l2 = [] := by
      rcases l2 with _ | ⟨a, l2⟩
      · rfl
      · exfalso
        have ha := (h a).mpr (List.mem_cons_self _ _)
        rw [h1e] at ha
        exact List.not_mem_nil a ha
    rw [h1e, h2e]
  · have h1ne : l1 ≠ [] := fun he => h1 (by rw [he]; rfl)
    have h2ne : l2 ≠ [] := by
      intro he
      obtain ⟨a, ha⟩ := List.exists_mem_of_ne_nil _ h1ne
      have ha2 := (h a).mp ha
      rw [he] at ha2
      exact List.not_mem_nil a ha2
    rw [if_neg h1, if_neg (fun h2 => h2ne (List.isEmpty_iff.mp h2))]
    congr 1
    have hperm : l1.dedup.Perm l2.dedup := by
      rw [List.perm_ext_iff_of_nodup (List.nodup_dedup l1) (List.nodup_dedup l2)]
      intro a
      rw [List.mem_dedup, List.mem_dedup]
      exact h a
    exact hperm.sum_eq

/-- Claim C6: in every returned tract row, the population field is the
sum of the distinct parsed-numeric population values among the
ZIP-attribute rows whose county FIPS matches the row's `fips` (NULL
when there are none). -/
theorem population_distinct_sum (db : DB) (pat : String) (r : OutRow)
    (hr : r ∈ aggregateByTract db pat) :
    r.population = sumDistinct (countyPops db r.fips) := by
  obtain ⟨ag, hag, hfin⟩ := mem_aggregateByTract.mp hr
  obtain ⟨_, hfips, _, _, hpop, _⟩ := mem_finalRows hfin
  obtain ⟨k, hk, hmk⟩ := mem_hpi_per_tract.mp hag
  rw [hpop, hfips, ← hmk]
  show sumDistinct (popVals (groupRows db pat k)) = sumDistinct (countyPops db k.2)
  exact sumDistinct_congr (popVals_mem_iff hk)

/-- Witness for claim C6 at the concrete database `dbA`: the two ZIP
rows sharing population figure 500 count once, the 300 row adds. -/
theorem population_distinct_sum_witness :
    rowA.population = sumDistinct (countyPops dbA rowA.fips) :=
  population_distinct_sum dbA "Metro" rowA (by decide)

/-! ### Claim C7 -/

/-- An effectful predicate evaluated to a successful `true`. -/
def okTrue (p : α → Except String Bool) (x : α) : Bool :=
  match p x with
  | Except.ok true => true
  | _ => false

/-- When the effectful filter succeeds, its output is the plain filter
by successful-`true` evaluation. -/
lemma exceptFilter_ok {p : α → Except String Bool} :
    ∀ {l out : List α}, exceptFilter p l = Except.ok out →
      out = l.filter (okTrue p) := by
  intro l
  induction l with
  | nil =>
      intro out h
      rw [show exceptFilter p [] = Except.ok [] from rfl] at h
      injection h with h2
      rw [← h2]
      rfl
  | cons a l ih =>
      intro out h
      unfold exceptFilter at h
      cases hpa : p a with
      | error e =>
          rw [hpa] at h
          exact absurd h (by simp)
      | ok b =>
          rw [hpa] at h
          cases hrec : exceptFilter p l with
          | error e =>
              rw [hrec] at h
              exact absurd h (by simp)
          | ok out2 =>
              rw [hrec] at h
              injection h with h2
              have hok : okTrue p a = b := by
                unfold okTrue
                rw [hpa]
                cases b <;> rfl
              rw [List.filter_cons, hok, ← h2, ih hrec]

/-- A ZIP-joined row passing the WHERE filter of the year query. -/
def zipFilterOk (pat : String) (r : ZJoined) : Bool := okTrue (zipWhereE pat) r

/-- A successful strict year cast to a present value gives the parsed
year. -/
lemma castYearE_some {r : ZJoined} {y : ℤ} (h : castYearE r = Except.ok (some y)) :
    zrowYear r = some y := by
  unfold zrowYear
  cases hy : r.1.1.year with
  | none => simp [castYearE, hy] at h
  | some s =>
      simp only [castYearE, hy] at h
      cases hp : parseIntStr s with
      | none => simp [hp] at h
      | some y2 =>
          simp only [hp, Except.ok.injEq, Option.some.injEq] at h
          show parseIntStr s = some y
          rw [hp, h]

/-- A row passing the year-query WHERE filter has a parsed year in the
2005–2013 window. -/
lemma zipFilterOk_spec {pat : String} {r : ZJoined}
    (h : zipFilterOk pat r = true) :
    ∃ y, zrowYear r = some y ∧ 2005 ≤ y ∧ y ≤ 2013 := by
  unfold zipFilterOk okTrue at h
  cases hw : zipWhereE pat r with
  | error e =>
      rw [hw] at h
      exact absurd h (by simp)
  | ok b =>
      rw [hw] at h
      cases b with
      | false => exact absurd h (by simp)
      | true =>
          unfold zipWhereE at hw
          by_cases hname : cbsaNameOk pat (some r.2) = true
          · rw [if_pos hname] at hw
            cases hcast : castYearE r with
            | error e =>
                rw [hcast] at hw
                exact absurd hw (by simp [Except.map])
            | ok y? =>
                rw [hcast] at hw
                cases y? with
                | none =>
                    injection hw with hw2
                    exact absurd hw2 (by simp)
                | some y =>
                    injection hw with hw2
                    rw [Bool.and_eq_true, Bool.and_eq_true] at hw2
                    exact ⟨y, castYearE_some hcast,
                      of_decide_eq_true hw2.1.1, of_decide_eq_true hw2.1.2⟩
          · rw [if_neg hname] at hw
            injection hw with hw2
            exact absurd hw2 (by simp)

/-- Specification of the year-series result: every row's year is in
the window with the group mean as value, the years are exactly those of
filter-passing rows, and they are strictly increasing. -/
def YearSeriesSpec (db : DB) (pat : String) (res : List (ℤ × ℚ)) : Prop :=
  (∀ p ∈ res, 2005 ≤ p.1 ∧ p.1 ≤ 2013 ∧
      p.2 = meanHpi (yearRows ((zipJoined db).filter (zipFilterOk pat)) p.1)) ∧
    (∀ y : ℤ, y ∈ res.map Prod.fst ↔
      ∃ r ∈ zipJoined db, zipFilterOk pat r = true ∧ zrowYear r = some y) ∧
    (res.map Prod.fst).Pairwise (fun a b => a < b)

/-- Claim C7: a successful year-series query returns exactly the years
in [2005, 2013] having at least one matching positive-HPI row, each
with the mean HPI of its rows, in strictly ascending year order. -/
theorem year_series_sound (db : DB) (pat : String) (res : List (ℤ × ℚ))
    (h : hpiByYear db pat = Except.ok res) : YearSeriesSpec db pat res := by
  unfold hpiByYear at h
  cases hef : exceptFilter (zipWhereE pat) (zipJoined db) with
  | error e =>
      rw [hef] at h
      exact absurd h (by simp [Except.map])
  | ok rows =>
      rw [hef] at h
      simp only [Except.map] at h
      injection h with h2
      have hrows : rows = (zipJoined db).filter (zipFilterOk pat) :=
        exceptFilter_ok hef
      have hperm : ((rows.filterMap zrowYear).dedup).insertionSort
          (fun a b => a ≤ b) |>.Perm ((rows.filterMap zrowYear).dedup) :=
        List.perm_insertionSort _ _
      have hkeymem : ∀ y : ℤ,
          y ∈ ((rows.filterMap zrowYear).dedup).insertionSort (fun a b => a ≤ b) ↔
            ∃ r ∈ rows, zrowYear r = some y := by
        intro y
        rw [hperm.mem_iff, List.mem_dedup, List.mem_filterMap]
      have hmapfst : res.map Prod.fst =
          ((rows.filterMap zrowYear).dedup).insertionSort (fun a b => a ≤ b) := by
        rw [← h2, List.map_map]
        rw [show (Prod.fst ∘ fun y => (y, meanHpi (yearRows rows y))) = id from rfl]
        rw [List.map_id]
      refine ⟨?_, ?_, ?_⟩
      · intro p hp
        rw [← h2, List.mem_map] at hp
        obtain ⟨y, hy, hpy⟩ := hp
        obtain ⟨r, hr, hry⟩ := (hkeymem y).mp hy
        have hrf : zipFilterOk pat r = true := by
          rw [hrows] at hr
          exact (List.mem_filter.mp hr).2
        obtain ⟨y2, hy2, hy2lo, hy2hi⟩ := zipFilterOk_spec hrf
        have hyy : y2 = y := by
          rw [hry] at hy2
          exact Option.some_inj.mp hy2.symm
        rw [← hpy]
        refine ⟨?_, ?_, ?_⟩
        · rw [← hyy]
          exact hy2lo
        · rw [← hyy]
          exact hy2hi
        · rw [← hrows]
      · intro y
        rw [hmapfst, hkeymem y]
        constructor
        · rintro ⟨r, hr, hry⟩
          rw [hrows] at hr
          rw [List.mem_filter] at hr
          exact ⟨r, hr.1, hr.2, hry⟩
        · rintro ⟨r, hr, hrf, hry⟩
          refine ⟨r, ?_, hry⟩
          rw [hrows]
          exact List.mem_filter.mpr ⟨hr, hrf⟩
      · rw [hmapfst]
        have hsorted : (((rows.filterMap zrowYear).dedup).insertionSort
            (fun a b => a ≤ b)).Sorted (fun a b : ℤ => a ≤ b) :=
          List.sorted_insertionSort _ _
        have hnodup : (((rows.filterMap zrowYear).dedup).insertionSort
            (fun a b => a ≤ b)).Nodup :=
          hperm.nodup_iff.mpr (List.nodup_dedup _)
        exact List.Sorted.lt_of_le hsorted hnodup

/-- Witness for claim C7 at the concrete database `dbA`. -/
theorem year_series_sound_witness :
    YearSeriesSpec dbA "Metro" [(2005, 100), (2006, 130)] :=
  year_series_sound dbA "Metro" [(2005, 100), (2006, 130)] rfl
